import Mathlib

/-!
Shallow embedding of the core of `tgl` (`src/svc.rs`), a domain-level client
for the Toggl time-tracking API.  Machine integers are modelled as `Int` with
explicit range checks where the Rust code can panic; timestamps are epoch
seconds (`Int`); the HTTP transport (`src/api.rs`) is an oracle whose
responses may vary per call; a Rust panic (from `unwrap`/`expect`) is the
`Outcome.panic` constructor; `Result<T, svc::Error>` is `Outcome`.
-/

namespace Tgl

/-- Model of `serde_json::Number`: either an integral JSON number of value
`v`, or a floating-point number (for which `as_i64` always fails). -/
inductive JNum where
  | int (v : Int)
  | float
deriving DecidableEq

/-- Lower bound of Rust `i64`. -/
def i64Min : Int := -(2 ^ 63)

/-- Upper bound of Rust `i64`. -/
def i64Max : Int := 2 ^ 63 - 1

/-- Model of `serde_json::Number::as_i64`: succeeds exactly on integral
numbers within the `i64` range. -/
def JNum.as_i64 : JNum → Option Int
  | .int v => if i64Min ≤ v ∧ v ≤ i64Max then some v else none
  | .float => none

/-- Smallest epoch second representable by a chrono `DateTime<Utc>`
(midnight of January 1 of year -262144, the chrono minimum date). -/
def tsMinSecs : Int := -8334632937600

/-- Largest epoch second representable by a chrono `DateTime<Utc>`
(last second of December 31 of year 262143, the chrono maximum date). -/
def tsMaxSecs : Int := 8210298412799

/-- Model of `Utc.timestamp_opt(secs, 0)`: `Single` exactly when the epoch
second lies in the chrono representable date range. -/
def timestamp_opt (secs : Int) : Option Int :=
  if tsMinSecs ≤ secs ∧ secs ≤ tsMaxSecs then some secs else none

/-- chrono `Duration` bound in whole seconds: `Duration::seconds(s)` panics
when `|s|` exceeds `i64::MAX` milliseconds expressed in seconds. -/
def durBoundSecs : Int := 9223372036854775

/-- Model of chrono `Duration::seconds`: in-bounds values are returned,
out-of-bounds values panic (`none`).  Durations are modelled in whole
seconds; this code path never constructs sub-second durations. -/
def duration_seconds (s : Int) : Option Int :=
  if -durBoundSecs ≤ s ∧ s ≤ durBoundSecs then some s else none

/-- Model of an ISO-8601 / RFC-3339 timestamp string as consumed and
produced by chrono: either a well-formed string denoting epoch second `t`,
or a malformed string. -/
inductive TsStr where
  | ofTs (t : Int)
  | malformed (s : String)
deriving DecidableEq

/-- Model of `chrono::ParseError`, tagged with the offending string. -/
structure ParseErr where
  src : String
deriving DecidableEq

/-- Model of `str::parse::<DateTime<Utc>>()`. -/
def TsStr.parseUtc : TsStr → Except ParseErr Int
  | .ofTs t => .ok t
  | .malformed s => .error ⟨s⟩

/-- Model of `reqwest::Error` (opaque transport failure). -/
structure ReqErr where
  tag : Nat
deriving DecidableEq

/-- Model of `svc::Error`: transport failures and chrono parse failures. -/
inductive Error where
  | reqwest (e : ReqErr)
  | chronoParse (e : ParseErr)
deriving DecidableEq

/-- Outcome of a fallible svc operation: an `Ok` value, a returned
`Err(svc::Error)`, or a process-aborting Rust panic. -/
inductive Outcome (α : Type) where
  | ok (a : α)
  | err (e : Error)
  | panic (msg : String)
deriving DecidableEq

/-- Whether an outcome is a returned `Err`. -/
def Outcome.isErr : Outcome α → Bool
  | .err _ => true
  | _ => false

/-- Wire-shaped project record (`api::Project`). -/
structure ApiProject where
  active : Bool
  client_id : Option JNum
  id : JNum
  name : String
  workspace_id : JNum
deriving DecidableEq

/-- Wire-shaped time-entry record (`api::TimeEntry`). -/
structure ApiTimeEntry where
  description : Option String
  duration : JNum
  id : JNum
  project_id : Option JNum
  start : Option TsStr
  stop : Option TsStr
  task_id : Option JNum
  workspace_id : JNum
deriving DecidableEq

/-- Write-side request record (`api::NewTimeEntry`). -/
structure NewTimeEntry where
  created_with : String
  description : Option String
  duration : JNum
  project_id : Option JNum
  start : TsStr
  stop : Option TsStr
  task_id : Option JNum
  workspace_id : JNum
deriving DecidableEq

/-- Domain project (`svc::Project`). -/
structure Project where
  active : Bool
  id : Int
  name : String
deriving DecidableEq

/-- Domain time entry (`svc::TimeEntry`). -/
structure TimeEntry where
  description : Option String
  duration : Int
  is_running : Bool
  project_id : Option Int
  project_name : Option String
  start : Option Int
  stop : Option Int
  workspace_id : Int
deriving DecidableEq

/-- The transport collaborator (`api::Client`) plus the injected clock,
modelled as an oracle.  `projectsResp` is additionally indexed by the
number of project fetches already performed, so that successive HTTP
responses may differ, as they can in reality; `clock` is indexed by the
number of clock reads already performed. -/
structure Api where
  clock : Nat → Int
  timeEntriesResp : Except ReqErr (List ApiTimeEntry)
  currentEntryResp : Except ReqErr (Option ApiTimeEntry)
  createResp : NewTimeEntry → Except ReqErr ApiTimeEntry
  stopResp : JNum → JNum → Except ReqErr ApiTimeEntry
  projectsResp : JNum → Nat → Except ReqErr (List ApiProject)

/-- Mutable state of one `svc::Client`: the frozen project cache, plus
instrumentation counters/logs for the oracle (clock reads, project fetches,
create and stop requests actually issued to the transport). -/
structure St where
  cache : List ((Int × Int) × Project)
  clockIdx : Nat
  projFetches : Nat
  createCalls : List NewTimeEntry
  stopCalls : List (JNum × JNum)
deriving DecidableEq

/-- Fresh client state (`Client::new`): empty frozen map, nothing issued. -/
def St.init : St := ⟨[], 0, 0, [], []⟩

/-- Lookup in the project cache (`FrozenMap::get`). -/
def cacheGet : List ((Int × Int) × Project) → (Int × Int) → Option Project
  | [], _ => none
  | kv :: rest, key => if kv.1 = key then some kv.2 else cacheGet rest key

/-- Insert into the project cache.  `elsa::FrozenMap::insert` goes through
`HashMap::entry(..).or_insert(..)`: when the key is already present the
existing value is kept and the new one discarded. -/
def cacheInsert (c : List ((Int × Int) × Project)) (k : Int × Int)
    (v : Project) : List ((Int × Int) × Project) :=
  match cacheGet c k with
  | some _ => c
  | none => (k, v) :: c

/-- The `CREATED_WITH` constant of `svc.rs`. -/
def CREATED_WITH : String := "github.com/blachniet/tgl"

/-- The insert loop of `Client::get_project` (svc.rs lines 104-113): each
returned project is inserted keyed by `(workspace_id, p.id)`.  The Boolean
is `true` when `p.id.as_i64().expect(..)` panicked; the returned cache is
the partial cache built up to that point. -/
def insertProjects (workspace_id : Int) :
    List ApiProject → List ((Int × Int) × Project) →
    List ((Int × Int) × Project) × Bool
  | [], c => (c, false)
  | p :: rest, c =>
    match p.id.as_i64 with
    | none => (c, true)
    | some i =>
        insertProjects workspace_id rest
          (cacheInsert c (workspace_id, i)
            { active := p.active, id := i, name := p.name })

/-- Model of `Client::get_project` (svc.rs lines 96-116): check the cache; on miss,
fetch all projects of the workspace in one transport call, insert every
returned project keyed by its own id, then re-check the cache. -/
def get_project (api : Api) (st : St) (workspace_id project_id : Int) :
    Outcome (Option Project) × St :=
  match cacheGet st.cache (workspace_id, project_id) with
  | some project => (.ok (some project), st)
  | none =>
    match api.projectsResp (JNum.int workspace_id) st.projFetches with
    | .error e =>
        (.err (.reqwest e), { st with projFetches := st.projFetches + 1 })
    | .ok projects =>
        let res := insertProjects workspace_id projects st.cache
        let st1 : St :=
          { st with projFetches := st.projFetches + 1, cache := res.1 }
        if res.2 then (.panic "parse number as i64", st1)
        else (.ok (cacheGet st1.cache (workspace_id, project_id)), st1)

/-- The loop of `Client::get_projects` (svc.rs lines 122-137): inserts each
returned project into the cache and pushes a copy onto the result vector.
The Boolean is `true` when `as_i64` panicked mid-loop. -/
def projectsLoop (workspace_id : Int) :
    List ApiProject → List ((Int × Int) × Project) → List Project →
    List ((Int × Int) × Project) × List Project × Bool
  | [], c, acc => (c, acc, false)
  | p :: rest, c, acc =>
    match p.id.as_i64 with
    | none => (c, acc, true)
    | some i =>
        projectsLoop workspace_id rest
          (cacheInsert c (workspace_id, i)
            { active := p.active, id := i, name := p.name })
          (acc ++ [{ active := p.active, id := i, name := p.name }])

/-- Model of `Client::get_projects` (svc.rs lines 118-140): always fetch, populate
the cache with every result, return the vector of domain projects. -/
def get_projects (api : Api) (st : St) (workspace_id : Int) :
    Outcome (List Project) × St :=
  match api.projectsResp (JNum.int workspace_id) st.projFetches with
  | .error e =>
      (.err (.reqwest e), { st with projFetches := st.projFetches + 1 })
  | .ok api_projects =>
      let res := projectsLoop workspace_id api_projects st.cache []
      let st1 : St :=
        { st with projFetches := st.projFetches + 1, cache := res.1 }
      if res.2.2 then (.panic "parse number as i64", st1)
      else (.ok res.2.1, st1)

/-- Model of `parse_duration` (svc.rs lines 161-173).  `none` models the panic of
`duration.as_i64().unwrap()`, of `Utc.timestamp_opt(-duration, 0).unwrap()`
(out-of-range epoch) or of `Duration::seconds` (out-of-bounds span). -/
def parse_duration (now : Int) (duration : JNum) : Option (Int × Bool) :=
  match duration.as_i64 with
  | none => none
  | some d =>
    if d < 0 then
      match timestamp_opt (-d) with
      | none => none
      | some startTs => some (now - startTs, true)
    else
      match duration_seconds d with
      | none => none
      | some s => some (s, false)

/-- Line 34 of svc.rs: `api_entry.project_id.map(|pid| pid.as_i64().unwrap())`.
The outer `none` models the `unwrap` panic. -/
def mapUnwrapI64 : Option JNum → Option (Option Int)
  | none => some none
  | some n =>
    match n.as_i64 with
    | none => none
    | some v => some (some v)

/-- Lines 35-38 of svc.rs: resolve the project when a project id is
present (which first narrows `workspace_id`, panicking on failure). -/
def resolveStep (api : Api) (st : St) (api_entry : ApiTimeEntry) :
    Option Int → Outcome (Option Project) × St
  | some pid =>
    match api_entry.workspace_id.as_i64 with
    | none => (.panic "unwrap on None", st)
    | some w => get_project api st w pid
  | none => (.ok none, st)

/-- Lines 40-47 of svc.rs: parse an optional timestamp string, propagating
a chrono parse failure. -/
def parseOptTs : Option TsStr → Except ParseErr (Option Int)
  | none => .ok none
  | some s =>
    match s.parseUtc with
    | .ok t => .ok (some t)
    | .error e => .error e

/-- Model of `Client::build_time_entry` (svc.rs lines 33-59). -/
def build_time_entry (api : Api) (st : St) (api_entry : ApiTimeEntry) :
    Outcome TimeEntry × St :=
  match mapUnwrapI64 api_entry.project_id with
  | none => (.panic "unwrap on None", st)
  | some project_id =>
    match resolveStep api st api_entry project_id with
    | (.err e, st1) => (.err e, st1)
    | (.panic m, st1) => (.panic m, st1)
    | (.ok project, st1) =>
      let now := api.clock st1.clockIdx
      let st2 : St := { st1 with clockIdx := st1.clockIdx + 1 }
      match parse_duration now api_entry.duration with
      | none => (.panic "parse_duration unwrap", st2)
      | some dr =>
        match parseOptTs api_entry.start with
        | .error pe => (.err (.chronoParse pe), st2)
        | .ok start =>
          match parseOptTs api_entry.stop with
          | .error pe => (.err (.chronoParse pe), st2)
          | .ok stop =>
            match api_entry.workspace_id.as_i64 with
            | none => (.panic "unwrap on None", st2)
            | some w2 =>
                (.ok { description := api_entry.description,
                       duration := dr.1, is_running := dr.2,
                       project_id := project_id,
                       project_name := project.map (fun p => p.name),
                       start := start, stop := stop,
                       workspace_id := w2 }, st2)

/-- The `collect::<Result<Vec<_>>>` of `get_latest_entries` (svc.rs lines
25-28): build entries in order, stopping at the first failure (the map
iterator is lazy, so later entries are not assembled at all). -/
def buildAll (api : Api) (st : St) :
    List ApiTimeEntry → Outcome (List TimeEntry) × St
  | [] => (.ok [], st)
  | e :: rest =>
    match build_time_entry api st e with
    | (.ok t, st1) =>
      match buildAll api st1 rest with
      | (.ok ts, st2) => (.ok (t :: ts), st2)
      | (.err er, st2) => (.err er, st2)
      | (.panic m, st2) => (.panic m, st2)
    | (.err er, st1) => (.err er, st1)
    | (.panic m, st1) => (.panic m, st1)

/-- Model of `Client::get_latest_entries` (svc.rs lines 23-31). -/
def get_latest_entries (api : Api) (st : St) :
    Outcome (List TimeEntry) × St :=
  match api.timeEntriesResp with
  | .error e => (.err (.reqwest e), st)
  | .ok api_entries => buildAll api st api_entries

/-- Model of `Client::start_time_entry` (svc.rs lines 61-81): capture `now`, build
and submit a `NewTimeEntry` with the negative-epoch duration encoding,
then assemble the transport response. -/
def start_time_entry (api : Api) (st : St) (workspace_id : Int)
    (project_id : Option Int) (description : Option String) :
    Outcome TimeEntry × St :=
  let now := api.clock st.clockIdx
  let st1 : St := { st with clockIdx := st.clockIdx + 1 }
  let req : NewTimeEntry :=
    { created_with := CREATED_WITH,
      description := description,
      duration := JNum.int (-now),
      project_id := project_id.map JNum.int,
      start := TsStr.ofTs now,
      stop := none,
      task_id := none,
      workspace_id := JNum.int workspace_id }
  let st2 : St := { st1 with createCalls := st1.createCalls ++ [req] }
  match api.createResp req with
  | .error e => (.err (.reqwest e), st2)
  | .ok api_entry => build_time_entry api st2 api_entry

/-- Model of `Client::stop_current_time_entry` (svc.rs lines 83-94): fetch the
current entry; when absent return `Ok(None)` without issuing a stop
request; otherwise stop it (keyed by workspace and entry id) and assemble
the response. -/
def stop_current_time_entry (api : Api) (st : St) :
    Outcome (Option TimeEntry) × St :=
  match api.currentEntryResp with
  | .error e => (.err (.reqwest e), st)
  | .ok none => (.ok none, st)
  | .ok (some cur) =>
    let st1 : St :=
      { st with stopCalls := st.stopCalls ++ [(cur.workspace_id, cur.id)] }
    match api.stopResp cur.workspace_id cur.id with
    | .error e => (.err (.reqwest e), st1)
    | .ok api_entry =>
      match build_time_entry api st1 api_entry with
      | (.ok t, st2) => (.ok (some t), st2)
      | (.err er, st2) => (.err er, st2)
      | (.panic m, st2) => (.panic m, st2)

/-- A call against the project cache, as named by the write-once claim: a
`get_project` resolve or a `get_projects` list. -/
inductive CacheOp where
  | resolve (workspace_id project_id : Int)
  | list (workspace_id : Int)

/-- Execute one cache operation for its state effect. -/
def stepOp (api : Api) (st : St) : CacheOp → St
  | .resolve w p => (get_project api st w p).2
  | .list w => (get_projects api st w).2

/-- Execute a sequence of cache operations. -/
def runOps (api : Api) (st : St) : List CacheOp → St
  | [] => st
  | op :: rest => runOps api (stepOp api st op) rest

/-! ## Concrete fixtures used by witnesses and counterexamples -/

/-- A concrete wire project, for witnesses. -/
def pr1 : ApiProject :=
  { active := true, client_id := none, id := JNum.int 5, name := "Proj",
    workspace_id := JNum.int 1 }

/-- A concrete benign oracle: fixed clock 1100, no entries, no current
entry, failing write endpoints, and workspace 1 holding `pr1`. -/
def apiW : Api :=
  { clock := fun _ => 1100,
    timeEntriesResp := .ok [],
    currentEntryResp := .ok none,
    createResp := fun _ => .error ⟨1⟩,
    stopResp := fun _ _ => .error ⟨2⟩,
    projectsResp := fun _ _ => .ok [pr1] }

/-- A raw entry whose duration is a non-integral JSON number. -/
def eC4 : ApiTimeEntry :=
  { description := none, duration := JNum.float, id := JNum.int 1,
    project_id := none, start := none, stop := none, task_id := none,
    workspace_id := JNum.int 1 }

/-- A sim-response raw entry for the create endpoint. -/
def eC9 : ApiTimeEntry :=
  { description := none, duration := JNum.int 0, id := JNum.int 1,
    project_id := none, start := none, stop := none, task_id := none,
    workspace_id := JNum.int 1 }

/-- An oracle whose clock advances on every read (`100 + n` on the n-th
read) and whose create endpoint succeeds with `eC9`. -/
def apiC9 : Api :=
  { clock := fun n => 100 + n,
    timeEntriesResp := .ok [],
    currentEntryResp := .ok none,
    createResp := fun _ => .ok eC9,
    stopResp := fun _ _ => .error ⟨2⟩,
    projectsResp := fun _ _ => .ok [] }

/-- A raw entry with a malformed start timestamp string. -/
def eBad : ApiTimeEntry :=
  { description := none, duration := JNum.int 0, id := JNum.int 2,
    project_id := none, start := some (.malformed "xx"), stop := none,
    task_id := none, workspace_id := JNum.int 1 }

/-- The domain entry that `eC9` assembles to under a clock fixed at 1100. -/
def tOk : TimeEntry :=
  { description := none, duration := 0, is_running := false,
    project_id := none, project_name := none, start := none,
    stop := none, workspace_id := 1 }

/-- An oracle serving a batch in which the second entry has a malformed
start timestamp and a third entry follows it. -/
def apiC5 : Api :=
  { clock := fun _ => 1100,
    timeEntriesResp := .ok [eC9, eBad, eC9],
    currentEntryResp := .ok none,
    createResp := fun _ => .error ⟨1⟩,
    stopResp := fun _ _ => .error ⟨2⟩,
    projectsResp := fun _ _ => .ok [] }

/-- An oracle with clock fixed at 2000 and empty project lists. -/
def apiC6 : Api :=
  { clock := fun _ => 2000,
    timeEntriesResp := .error ⟨0⟩,
    currentEntryResp := .ok none,
    createResp := fun _ => .error ⟨1⟩,
    stopResp := fun _ _ => .error ⟨2⟩,
    projectsResp := fun _ _ => .ok [] }

/-- A raw entry carrying the running-encoding duration -1000 while also
carrying a stop timestamp and a start timestamp inconsistent with it. -/
def eC6 : ApiTimeEntry :=
  { description := none, duration := JNum.int (-1000), id := JNum.int 7,
    project_id := none, start := some (.ofTs 999), stop := some (.ofTs 2000),
    task_id := none, workspace_id := JNum.int 1 }

/-- The domain entry that `eC6` assembles to under `apiC6`. -/
def tC6 : TimeEntry :=
  { description := none, duration := 1000, is_running := true,
    project_id := none, project_name := none, start := some 999,
    stop := some 2000, workspace_id := 1 }

/-- Wire project id 5 named "Old" (first response of `apiC8`). -/
def prOld : ApiProject :=
  { active := true, client_id := none, id := JNum.int 5, name := "Old",
    workspace_id := JNum.int 1 }

/-- Wire project id 5 named "New" (later responses of `apiC8`). -/
def prNew : ApiProject :=
  { active := true, client_id := none, id := JNum.int 5, name := "New",
    workspace_id := JNum.int 1 }

/-- An oracle whose project list for a workspace changes between the first
fetch and every later fetch, as a live remote can. -/
def apiC8 : Api :=
  { clock := fun _ => 0,
    timeEntriesResp := .ok [],
    currentEntryResp := .ok none,
    createResp := fun _ => .error ⟨1⟩,
    stopResp := fun _ _ => .error ⟨2⟩,
    projectsResp := fun _ n => if n = 0 then .ok [prOld] else .ok [prNew] }

/-- The state after `get_projects apiW St.init 1`. -/
def stW8 : St :=
  { St.init with projFetches := 1, cache := [((1, 5), ⟨true, 5, "Proj"⟩)] }

/-! ## Lemmas about the frozen cache -/

theorem cacheGet_cacheInsert (c : List ((Int × Int) × Project))
    (k k1 : Int × Int) (v v1 : Project) (h : cacheGet c k = some v) :
    cacheGet (cacheInsert c k1 v1) k = some v := by
  unfold cacheInsert
  cases hc : cacheGet c k1 with
  | some p => exact h
  | none =>
    simp only [cacheGet]
    by_cases hk : k1 = k
    · subst hk; rw [h] at hc; cases hc
    · simp [hk, h]

theorem cacheGet_cacheInsert_self (c : List ((Int × Int) × Project))
    (k : Int × Int) (v1 : Project) :
    (cacheGet (cacheInsert c k v1) k).isSome = true := by
  unfold cacheInsert
  cases hc : cacheGet c k with
  | some p => simp [hc]
  | none => simp [cacheGet]

theorem cacheGet_cacheInsert_hit (c : List ((Int × Int) × Project))
    (k : Int × Int) (v1 : Project) (h : cacheGet c k = none) :
    cacheGet (cacheInsert c k v1) k = some v1 := by
  unfold cacheInsert
  rw [h]
  simp [cacheGet]

theorem cacheGet_cacheInsert_ne (c : List ((Int × Int) × Project))
    (k k1 : Int × Int) (v1 : Project) (h : k1 ≠ k) :
    cacheGet (cacheInsert c k1 v1) k = cacheGet c k := by
  unfold cacheInsert
  cases hc : cacheGet c k1 with
  | some p => rfl
  | none => simp [cacheGet, h]

theorem insertProjects_preserve (w : Int) (ps : List ApiProject) :
    ∀ c k v, cacheGet c k = some v →
      cacheGet (insertProjects w ps c).1 k = some v := by
  induction ps with
  | nil => intro c k v h; simpa [insertProjects] using h
  | cons p rest ih =>
    intro c k v h
    cases hid : p.id.as_i64 with
    | none => simpa [insertProjects, hid] using h
    | some i =>
      simp only [insertProjects, hid]
      exact ih _ _ _ (cacheGet_cacheInsert _ _ _ _ _ h)

theorem insertProjects_preserveSome (w : Int) (ps : List ApiProject)
    (c : List ((Int × Int) × Project)) (k : Int × Int)
    (h : (cacheGet c k).isSome = true) :
    (cacheGet (insertProjects w ps c).1 k).isSome = true := by
  obtain ⟨v, hv⟩ := Option.isSome_iff_exists.mp h
  rw [insertProjects_preserve w ps c k v hv]
  rfl

theorem insertProjects_presence (w : Int) (ps : List ApiProject) :
    ∀ c, (insertProjects w ps c).2 = false →
      ∀ p ∈ ps, ∀ i, p.id.as_i64 = some i →
        (cacheGet (insertProjects w ps c).1 (w, i)).isSome = true := by
  induction ps with
  | nil => intro c _ p hp; cases hp
  | cons q rest ih =>
    intro c hflag p hp i hpi
    cases hid : q.id.as_i64 with
    | none => simp [insertProjects, hid] at hflag
    | some j =>
      simp only [insertProjects, hid] at hflag ⊢
      rcases List.mem_cons.mp hp with hq | hrest
      · subst hq
        rw [hpi] at hid
        injection hid with hij
        subst hij
        exact insertProjects_preserveSome w rest _ _
          (cacheGet_cacheInsert_self _ _ _)
      · exact ih _ hflag p hrest i hpi

theorem projectsLoop_preserve (w : Int) (ps : List ApiProject) :
    ∀ c acc k v, cacheGet c k = some v →
      cacheGet (projectsLoop w ps c acc).1 k = some v := by
  induction ps with
  | nil => intro c acc k v h; simpa [projectsLoop] using h
  | cons p rest ih =>
    intro c acc k v h
    cases hid : p.id.as_i64 with
    | none => simpa [projectsLoop, hid] using h
    | some i =>
      simp only [projectsLoop, hid]
      exact ih _ _ _ _ (cacheGet_cacheInsert _ _ _ _ _ h)

theorem projectsLoop_preserveSome (w : Int) (ps : List ApiProject)
    (c : List ((Int × Int) × Project)) (acc : List Project) (k : Int × Int)
    (h : (cacheGet c k).isSome = true) :
    (cacheGet (projectsLoop w ps c acc).1 k).isSome = true := by
  obtain ⟨v, hv⟩ := Option.isSome_iff_exists.mp h
  rw [projectsLoop_preserve w ps c acc k v hv]
  rfl

theorem projectsLoop_acc_mono (w : Int) (ps : List ApiProject) :
    ∀ c acc x, x ∈ acc → x ∈ (projectsLoop w ps c acc).2.1 := by
  induction ps with
  | nil => intro c acc x hx; simpa [projectsLoop] using hx
  | cons p rest ih =>
    intro c acc x hx
    cases hid : p.id.as_i64 with
    | none => simpa [projectsLoop, hid] using hx
    | some i =>
      simp only [projectsLoop, hid]
      exact ih _ _ _ (List.mem_append_left _ hx)

theorem projectsLoop_presence (w : Int) (ps : List ApiProject) :
    ∀ c acc, (projectsLoop w ps c acc).2.2 = false →
      ∀ p ∈ ps, ∀ i, p.id.as_i64 = some i →
        (cacheGet (projectsLoop w ps c acc).1 (w, i)).isSome = true := by
  induction ps with
  | nil => intro c acc _ p hp; cases hp
  | cons q rest ih =>
    intro c acc hflag p hp i hpi
    cases hid : q.id.as_i64 with
    | none => simp [projectsLoop, hid] at hflag
    | some j =>
      simp only [projectsLoop, hid] at hflag ⊢
      rcases List.mem_cons.mp hp with hq | hrest
      · subst hq
        rw [hpi] at hid
        injection hid with hij
        subst hij
        exact projectsLoop_preserveSome w rest _ _ _
          (cacheGet_cacheInsert_self _ _ _)
      · exact ih _ _ hflag p hrest i hpi

theorem projectsLoop_mem (w : Int) (ps : List ApiProject) :
    ∀ c acc p, p ∈ (projectsLoop w ps c acc).2.1 →
      p ∈ acc ∨ ∃ ap ∈ ps, ∃ i, ap.id.as_i64 = some i ∧
        p = { active := ap.active, id := i, name := ap.name } := by
  induction ps with
  | nil => intro c acc p hp; exact Or.inl (by simpa [projectsLoop] using hp)
  | cons q rest ih =>
    intro c acc p hp
    cases hid : q.id.as_i64 with
    | none =>
      exact Or.inl (by simpa [projectsLoop, hid] using hp)
    | some j =>
      simp only [projectsLoop, hid] at hp
      rcases ih _ _ p hp with hacc | ⟨ap, hap, i, hi, hpeq⟩
      · rcases List.mem_append.mp hacc with h1 | h2
        · exact Or.inl h1
        · refine Or.inr ⟨q, List.mem_cons_self _ _, j, hid, ?_⟩
          simpa using List.mem_singleton.mp h2
      · exact Or.inr ⟨ap, List.mem_cons_of_mem _ hap, i, hi, hpeq⟩

theorem projectsLoop_absent (w : Int) (ps : List ApiProject) :
    ∀ c acc, (projectsLoop w ps c acc).2.2 = false →
      ∀ i q, cacheGet c (w, i) = none →
        cacheGet (projectsLoop w ps c acc).1 (w, i) = some q →
        q ∈ (projectsLoop w ps c acc).2.1 ∧ q.id = i := by
  induction ps with
  | nil =>
    intro c acc _ i q hnone hsome
    rw [show (projectsLoop w [] c acc).1 = c from rfl] at hsome
    rw [hnone] at hsome
    cases hsome
  | cons p rest ih =>
    intro c acc hflag i q hnone hsome
    cases hid : p.id.as_i64 with
    | none => simp [projectsLoop, hid] at hflag
    | some j =>
      simp only [projectsLoop, hid] at hflag hsome ⊢
      by_cases hij : j = i
      · subst hij
        have hins : cacheGet (cacheInsert c (w, j)
            { active := p.active, id := j, name := p.name }) (w, j) =
            some { active := p.active, id := j, name := p.name } :=
          cacheGet_cacheInsert_hit _ _ _ hnone
        have hpres := projectsLoop_preserve w rest _
          (acc ++ [{ active := p.active, id := j, name := p.name }]) _ _ hins
        rw [hpres] at hsome
        injection hsome with hq
        subst hq
        refine ⟨projectsLoop_acc_mono w rest _ _ _ ?_, rfl⟩
        exact List.mem_append_right _ (List.mem_singleton.mpr rfl)
      · have hne : ((w, j) : Int × Int) ≠ (w, i) := by
          intro hcontra
          exact hij (congrArg Prod.snd hcontra)
        have hstill : cacheGet (cacheInsert c (w, j)
            { active := p.active, id := j, name := p.name }) (w, i) = none := by
          rw [cacheGet_cacheInsert_ne _ _ _ _ hne]
          exact hnone
        exact ih _ _ hflag i q hstill hsome

/-! ## State-shape lemmas: which fields each operation can touch -/

theorem get_project_clockIdx (api : Api) (st : St) (w p : Int) :
    (get_project api st w p).2.clockIdx = st.clockIdx := by
  unfold get_project
  split
  · rfl
  · split
    · rfl
    · dsimp only
      split <;> rfl

theorem get_project_createCalls (api : Api) (st : St) (w p : Int) :
    (get_project api st w p).2.createCalls = st.createCalls := by
  unfold get_project
  split
  · rfl
  · split
    · rfl
    · dsimp only
      split <;> rfl

theorem get_project_stopCalls (api : Api) (st : St) (w p : Int) :
    (get_project api st w p).2.stopCalls = st.stopCalls := by
  unfold get_project
  split
  · rfl
  · split
    · rfl
    · dsimp only
      split <;> rfl

theorem get_project_cache_mono (api : Api) (st : St) (w p : Int)
    (k : Int × Int) (v : Project) (h : cacheGet st.cache k = some v) :
    cacheGet (get_project api st w p).2.cache k = some v := by
  unfold get_project
  split
  · exact h
  · split
    · exact h
    · dsimp only
      split <;> exact insertProjects_preserve _ _ _ _ _ h

theorem get_projects_cache_mono (api : Api) (st : St) (w : Int)
    (k : Int × Int) (v : Project) (h : cacheGet st.cache k = some v) :
    cacheGet (get_projects api st w).2.cache k = some v := by
  unfold get_projects
  split
  · exact h
  · dsimp only
    split <;> exact projectsLoop_preserve _ _ _ _ _ _ h

theorem resolveStep_clockIdx (api : Api) (st : St) (e : ApiTimeEntry)
    (pid : Option Int) :
    (resolveStep api st e pid).2.clockIdx = st.clockIdx := by
  cases pid with
  | none => simp [resolveStep]
  | some p =>
    cases hw : e.workspace_id.as_i64 with
    | none => simp [resolveStep, hw]
    | some w => simp [resolveStep, hw, get_project_clockIdx]

theorem resolveStep_createCalls (api : Api) (st : St) (e : ApiTimeEntry)
    (pid : Option Int) :
    (resolveStep api st e pid).2.createCalls = st.createCalls := by
  cases pid with
  | none => simp [resolveStep]
  | some p =>
    cases hw : e.workspace_id.as_i64 with
    | none => simp [resolveStep, hw]
    | some w => simp [resolveStep, hw, get_project_createCalls]

theorem resolveStep_stopCalls (api : Api) (st : St) (e : ApiTimeEntry)
    (pid : Option Int) :
    (resolveStep api st e pid).2.stopCalls = st.stopCalls := by
  cases pid with
  | none => simp [resolveStep]
  | some p =>
    cases hw : e.workspace_id.as_i64 with
    | none => simp [resolveStep, hw]
    | some w => simp [resolveStep, hw, get_project_stopCalls]

theorem resolveStep_cache_mono (api : Api) (st : St) (e : ApiTimeEntry)
    (pid : Option Int) (k : Int × Int) (v : Project)
    (h : cacheGet st.cache k = some v) :
    cacheGet (resolveStep api st e pid).2.cache k = some v := by
  cases pid with
  | none => simpa [resolveStep] using h
  | some p =>
    cases hw : e.workspace_id.as_i64 with
    | none => simpa [resolveStep, hw] using h
    | some w =>
      simp only [resolveStep, hw]
      exact get_project_cache_mono _ _ _ _ _ _ h

theorem build_time_entry_createCalls (api : Api) (st : St)
    (e : ApiTimeEntry) :
    (build_time_entry api st e).2.createCalls = st.createCalls := by
  cases hm : mapUnwrapI64 e.project_id with
  | none => simp [build_time_entry, hm]
  | some pid =>
    rcases hres : resolveStep api st e pid with ⟨o, st1⟩
    have hcc : st1.createCalls = st.createCalls := by
      have h2 := resolveStep_createCalls api st e pid
      rw [hres] at h2
      exact h2
    cases o with
    | err er => simp [build_time_entry, hm, hres, hcc]
    | panic m => simp [build_time_entry, hm, hres, hcc]
    | ok project =>
      simp only [build_time_entry, hm, hres]
      split
      · simpa using hcc
      · split
        · simpa using hcc
        · split
          · simpa using hcc
          · split
            · simpa using hcc
            · simpa using hcc

theorem build_time_entry_stopCalls (api : Api) (st : St)
    (e : ApiTimeEntry) :
    (build_time_entry api st e).2.stopCalls = st.stopCalls := by
  cases hm : mapUnwrapI64 e.project_id with
  | none => simp [build_time_entry, hm]
  | some pid =>
    rcases hres : resolveStep api st e pid with ⟨o, st1⟩
    have hcc : st1.stopCalls = st.stopCalls := by
      have h2 := resolveStep_stopCalls api st e pid
      rw [hres] at h2
      exact h2
    cases o with
    | err er => simp [build_time_entry, hm, hres, hcc]
    | panic m => simp [build_time_entry, hm, hres, hcc]
    | ok project =>
      simp only [build_time_entry, hm, hres]
      split
      · simpa using hcc
      · split
        · simpa using hcc
        · split
          · simpa using hcc
          · split
            · simpa using hcc
            · simpa using hcc

theorem stepOp_cache_mono (api : Api) (st : St) (op : CacheOp)
    (k : Int × Int) (v : Project) (h : cacheGet st.cache k = some v) :
    cacheGet (stepOp api st op).cache k = some v := by
  cases op with
  | resolve w p => exact get_project_cache_mono _ _ _ _ _ _ h
  | list w => exact get_projects_cache_mono _ _ _ _ _ h

theorem runOps_cache_mono (api : Api) (ops : List CacheOp) :
    ∀ st k v, cacheGet st.cache k = some v →
      cacheGet (runOps api st ops).cache k = some v := by
  induction ops with
  | nil => intro st k v h; exact h
  | cons op rest ih =>
    intro st k v h
    exact ih _ _ _ (stepOp_cache_mono _ _ _ _ _ h)

theorem start_time_entry_request (api : Api) (st : St) (w : Int)
    (p : Option Int) (d : Option String) :
    (start_time_entry api st w p d).2.createCalls =
      st.createCalls ++
        [{ created_with := CREATED_WITH, description := d,
           duration := JNum.int (-(api.clock st.clockIdx)),
           project_id := p.map JNum.int,
           start := TsStr.ofTs (api.clock st.clockIdx), stop := none,
           task_id := none, workspace_id := JNum.int w }] := by
  unfold start_time_entry
  dsimp only
  split
  · rfl
  · rw [build_time_entry_createCalls]

theorem buildAll_fail_fast (api : Api) (l1 : List ApiTimeEntry) :
    ∀ st ts st1, buildAll api st l1 = (.ok ts, st1) →
      ∀ x l2 er st2, build_time_entry api st1 x = (.err er, st2) →
        buildAll api st (l1 ++ x :: l2) = (.err er, st2) := by
  induction l1 with
  | nil =>
    intro st ts st1 h x l2 er st2 hx
    simp only [buildAll, Prod.mk.injEq] at h
    obtain ⟨-, hst⟩ := h
    subst hst
    simp only [List.nil_append, buildAll, hx]
  | cons e rest ih =>
    intro st ts st1 h x l2 er st2 hx
    rcases hb : build_time_entry api st e with ⟨o, st3⟩
    cases o with
    | err e2 => simp [buildAll, hb] at h
    | panic m => simp [buildAll, hb] at h
    | ok t =>
      simp only [buildAll, hb] at h
      rcases hr : buildAll api st3 rest with ⟨o2, st4⟩
      cases o2 with
      | err e2 => rw [hr] at h; simp at h
      | panic m => rw [hr] at h; simp at h
      | ok ts2 =>
        rw [hr] at h
        simp only [Prod.mk.injEq, Outcome.ok.injEq] at h
        obtain ⟨-, hst⟩ := h
        subst hst
        simp only [List.cons_append, buildAll, hb]
        simp only [List.append_eq]
        rw [ih st3 ts2 st4 hr x l2 er st2 hx]

theorem parse_duration_inv (now : Int) (j : JNum) (dr : Int × Bool)
    (h : parse_duration now j = some dr) :
    ∃ d, j.as_i64 = some d ∧
      ((d < 0 ∧ dr = (now - (-d), true)) ∨ (0 ≤ d ∧ dr = (d, false))) := by
  cases ja : j.as_i64 with
  | none => simp [parse_duration, ja] at h
  | some d =>
    refine ⟨d, rfl, ?_⟩
    simp only [parse_duration, ja] at h
    by_cases hd : d < 0
    · left
      refine ⟨hd, ?_⟩
      rw [if_pos hd] at h
      cases hts : timestamp_opt (-d) with
      | none => rw [hts] at h; cases h
      | some s =>
        rw [hts] at h
        have hs : s = -d := by
          unfold timestamp_opt at hts
          split at hts
          · exact (Option.some.injEq _ _ ▸ hts).symm
          · cases hts
        injection h with h2
        rw [← h2, hs]
    · right
      have h0 : 0 ≤ d := not_lt.mp hd
      refine ⟨h0, ?_⟩
      rw [if_neg hd] at h
      cases hds : duration_seconds d with
      | none => rw [hds] at h; cases h
      | some s =>
        rw [hds] at h
        have hs : s = d := by
          unfold duration_seconds at hds
          split at hds
          · exact (Option.some.injEq _ _ ▸ hds).symm
          · cases hds
        injection h with h2
        rw [← h2, hs]

/-! ## Claim theorems -/

/-- Claim C1, counterexample: the claim promises that a non-negative raw
duration is returned verbatim for every integer value, but at `v = 2^62`
(a valid `i64`) the code panics in `Duration::seconds`, returning
nothing. -/
theorem C1_cex :
    parse_duration 0 (JNum.int (2 ^ 62)) = none ∧
    parse_duration 0 (JNum.int (2 ^ 62)) ≠ some ((2 : Int) ^ 62, false) := by
  constructor
  · decide
  · decide

/-- Claim C1 (amended): for every raw duration value representable as an
`i64` and every clock value, the codec returns `(Duration::seconds(v),
false)` when `v` is non-negative and within chrono `Duration` bounds, and
returns `(now - epoch(-v), true)` when `v` is negative with `-v` inside
the chrono representable timestamp range; outside those ranges the code
panics instead of returning. -/
theorem C1_parse_duration (now v : Int) (h1 : i64Min ≤ v) (h2 : v ≤ i64Max) :
    (0 ≤ v → v ≤ durBoundSecs →
      parse_duration now (JNum.int v) = some (v, false)) ∧
    (v < 0 → -v ≤ tsMaxSecs →
      parse_duration now (JNum.int v) = some (now - (-v), true)) := by
  constructor
  · intro h0 hdb
    have hnl : ¬ v < 0 := not_lt.mpr h0
    have hlb : -durBoundSecs ≤ v :=
      le_trans (by norm_num [durBoundSecs]) h0
    simp [parse_duration, JNum.as_i64, h1, h2, hnl, duration_seconds,
      hlb, hdb]
  · intro hneg htsm
    have hlo : tsMinSecs ≤ -v := by
      simp only [tsMinSecs]
      omega
    simp [parse_duration, JNum.as_i64, h1, h2, hneg, timestamp_opt,
      hlo, htsm]

/-- Claim C1, witness: the running-entry decoding at the test vector of the repository itself. -/
theorem C1_parse_duration_witness :
    parse_duration 1404810630 (JNum.int (-1404810600)) = some (30, true) := by
  have h := (C1_parse_duration 1404810630 (-1404810600) (by decide)
    (by decide)).2 (by decide) (by decide)
  norm_num at h
  exact h

/-- Claim C3 (confirmed): across any sequence of `get_project` and
`get_projects` calls, a value cached under a key is never updated or
removed, and a direct second insert for an occupied key keeps the original
value. -/
theorem C3_write_once (api : Api) (st : St) (ops : List CacheOp)
    (k : Int × Int) (v : Project) (h : cacheGet st.cache k = some v) :
    cacheGet (runOps api st ops).cache k = some v ∧
    ∀ c v1, cacheGet c k = some v → cacheGet (cacheInsert c k v1) k = some v := by
  exact ⟨runOps_cache_mono api ops st k v h,
    fun c v1 hc => cacheGet_cacheInsert c k k v v1 hc⟩

/-- Claim C3, witness: a pre-cached value for key `(1, 5)` survives a
list call and two resolve calls against an oracle that keeps returning a
different project under the same id. -/
theorem C3_write_once_witness :
    cacheGet (runOps apiW
      { St.init with cache := [((1, 5), ⟨false, 5, "Other"⟩)] }
      [CacheOp.list 1, CacheOp.resolve 1 5, CacheOp.resolve 1 6]).cache
      (1, 5) = some ⟨false, 5, "Other"⟩ :=
  (C3_write_once apiW
    { St.init with cache := [((1, 5), ⟨false, 5, "Other"⟩)] }
    [CacheOp.list 1, CacheOp.resolve 1 5, CacheOp.resolve 1 6]
    (1, 5) ⟨false, 5, "Other"⟩ (by decide)).1

/-- Claim C4, counterexample: on a raw entry whose duration is not
interpretable as an `i64`, assembly does not signal a typed decode error —
it panics (aborting the process), as the doc comment of `parse_duration` itself states. -/
theorem C4_cex :
    (build_time_entry apiW St.init eC4).1 =
      Outcome.panic "parse_duration unwrap" ∧
    (build_time_entry apiW St.init eC4).1.isErr = false := by
  constructor
  · decide
  · decide

/-- Claim C4 (amended): if a raw duration value or a raw numeric
identifier cannot be interpreted as a 64-bit integer, the assembling
operation does not silently coerce the value — it panics (unconditionally
aborting) rather than returning a typed decode error. -/
theorem C4_decode_panics (api : Api) (st : St) (e : ApiTimeEntry) :
    (e.project_id = none → e.duration.as_i64 = none →
      (build_time_entry api st e).1 = .panic "parse_duration unwrap") ∧
    (∀ n, e.project_id = some n → n.as_i64 = none →
      (build_time_entry api st e).1 = .panic "unwrap on None") := by
  constructor
  · intro hpid hdur
    simp [build_time_entry, mapUnwrapI64, hpid, resolveStep,
      parse_duration, hdur]
  · intro n hpid hn
    simp [build_time_entry, mapUnwrapI64, hpid, hn]

/-- Claim C4, witness: the duration-decode panic at a concrete entry. -/
theorem C4_decode_panics_witness :
    (build_time_entry apiW St.init eC4).1 =
      Outcome.panic "parse_duration unwrap" :=
  (C4_decode_panics apiW St.init eC4).1 (by decide) (by decide)

/-- Claim C7 (confirmed): when no running entry exists,
`stop_current_time_entry` returns `Ok(None)`, leaves the state unchanged,
and in particular issues no stop request to the transport. -/
theorem C7_stop_idle (api : Api) (st : St)
    (h : api.currentEntryResp = .ok none) :
    stop_current_time_entry api st = (.ok none, st) ∧
    (stop_current_time_entry api st).2.stopCalls = st.stopCalls := by
  have h1 : stop_current_time_entry api st = (.ok none, st) := by
    simp [stop_current_time_entry, h]
  exact ⟨h1, by rw [h1]⟩

/-- Claim C7, witness: the idle-state stop against a concrete oracle. -/
theorem C7_stop_idle_witness :
    stop_current_time_entry apiW St.init = (Outcome.ok none, St.init) :=
  (C7_stop_idle apiW St.init rfl).1

/-- Claim C9, counterexample: a single successful `start_time_entry` call
reads the injected clock twice (the counter ends at 2, not 1): once to
build the request, and once more inside `build_time_entry` when assembling
the response. -/
theorem C9_cex :
    (start_time_entry apiC9 St.init 1 none none).2.clockIdx = 2 ∧
    (start_time_entry apiC9 St.init 1 none none).1 =
      Outcome.ok
        { description := none, duration := 0, is_running := false,
          project_id := none, project_name := none, start := none,
          stop := none, workspace_id := 1 } ∧
    (start_time_entry apiC9 St.init 1 none none).2.createCalls =
      [{ created_with := CREATED_WITH, description := none,
         duration := JNum.int (-100), project_id := none,
         start := TsStr.ofTs 100, stop := none, task_id := none,
         workspace_id := JNum.int 1 }] := by
  refine ⟨by decide, by decide, by decide⟩

/-- Claim C9 (amended): `start_time_entry` captures `now` once to build
the request: the submitted `NewTimeEntry` has `duration` equal to the
negation of that single captured epoch second and `start` derived from
the same capture.  (Assembling the response then reads the clock a second
time, so the call as a whole reads the clock twice.) -/
theorem C9_single_capture_request (api : Api) (st : St) (w : Int)
    (p : Option Int) (d : Option String) :
    (start_time_entry api st w p d).2.createCalls =
      st.createCalls ++
        [{ created_with := CREATED_WITH, description := d,
           duration := JNum.int (-(api.clock st.clockIdx)),
           project_id := p.map JNum.int,
           start := TsStr.ofTs (api.clock st.clockIdx), stop := none,
           task_id := none, workspace_id := JNum.int w }] :=
  start_time_entry_request api st w p d

/-- Claim C10 (confirmed): every request submitted by `start_time_entry`
has `task_id` absent, `stop` absent, and `created_with` fixed to
"github.com/blachniet/tgl", regardless of the arguments of the call. -/
theorem C10_fixed_request_fields (api : Api) (st : St) (w : Int)
    (p : Option Int) (d : Option String) :
    ∃ req, (start_time_entry api st w p d).2.createCalls =
        st.createCalls ++ [req] ∧
      req.task_id = none ∧ req.stop = none ∧
      req.created_with = "github.com/blachniet/tgl" :=
  ⟨_, start_time_entry_request api st w p d, rfl, rfl, rfl⟩

/-- Claim C2 (confirmed): on a cache miss, `get_project` performs exactly
one transport fetch of all projects of the workspace, inserts every
returned project keyed by its own id, re-checks the cache, and answers
with the re-checked value — in particular `Ok(None)`, not an error, when
the requested id is still absent after the bulk fetch.  (Hypotheses:
the fetch succeeds and every returned id narrows to an `i64`, i.e. the
insert loop does not panic.) -/
theorem C2_get_project_miss (api : Api) (st : St) (w pid : Int)
    (ps : List ApiProject)
    (hmiss : cacheGet st.cache (w, pid) = none)
    (hresp : api.projectsResp (JNum.int w) st.projFetches = .ok ps)
    (hflag : (insertProjects w ps st.cache).2 = false) :
    get_project api st w pid =
      (.ok (cacheGet (insertProjects w ps st.cache).1 (w, pid)),
        { st with projFetches := st.projFetches + 1,
                  cache := (insertProjects w ps st.cache).1 }) ∧
    (∀ p ∈ ps, ∀ i, p.id.as_i64 = some i →
      (cacheGet (insertProjects w ps st.cache).1 (w, i)).isSome = true) ∧
    (cacheGet (insertProjects w ps st.cache).1 (w, pid) = none →
      (get_project api st w pid).1 = .ok none) := by
  have hmain : get_project api st w pid =
      (.ok (cacheGet (insertProjects w ps st.cache).1 (w, pid)),
        { st with projFetches := st.projFetches + 1,
                  cache := (insertProjects w ps st.cache).1 }) := by
    simp only [get_project, hmiss, hresp]
    rw [hflag]
    simp
  refine ⟨hmain, insertProjects_presence w ps st.cache hflag, ?_⟩
  intro habs
  rw [hmain, habs]

/-- Claim C2, witness: a miss on key `(1, 5)` against an oracle listing
exactly one project with id 5 fetches once, populates the cache, and
answers from the re-check. -/
theorem C2_get_project_miss_witness :
    get_project apiW St.init 1 5 =
      (Outcome.ok (cacheGet (insertProjects 1 [pr1] St.init.cache).1 (1, 5)),
        { St.init with projFetches := St.init.projFetches + 1,
                       cache := (insertProjects 1 [pr1] St.init.cache).1 }) :=
  (C2_get_project_miss apiW St.init 1 5 [pr1] (by decide) rfl (by decide)).1

/-- Claim C5 (confirmed): `get_latest_entries` assembles entries in order
and propagates the first assembly failure, aborting the remaining batch
with no partial results; and a malformed start timestamp string surfaces
as a chrono parse error rather than being swallowed. -/
theorem C5_fail_fast (api : Api) (st st1 st2 : St)
    (l1 l2 : List ApiTimeEntry) (x : ApiTimeEntry)
    (ts : List TimeEntry) (er : Error)
    (hresp : api.timeEntriesResp = .ok (l1 ++ x :: l2))
    (h1 : buildAll api st l1 = (.ok ts, st1))
    (hx : build_time_entry api st1 x = (.err er, st2)) :
    get_latest_entries api st = (.err er, st2) ∧
    (∀ st3 e s, e.project_id = none →
      (∃ dr, parse_duration (api.clock st3.clockIdx) e.duration = some dr) →
      e.start = some (.malformed s) →
      (build_time_entry api st3 e).1 = .err (.chronoParse ⟨s⟩)) := by
  constructor
  · simp only [get_latest_entries, hresp]
    exact buildAll_fail_fast api l1 st ts st1 h1 x l2 er st2 hx
  · intro st3 e s hpid hdr hstart
    obtain ⟨dr, hdr⟩ := hdr
    simp [build_time_entry, mapUnwrapI64, hpid, resolveStep, hdr,
      parseOptTs, hstart, TsStr.parseUtc]

/-- Claim C5, witness: a batch whose second entry has a malformed start
string fails with a chrono parse error; the third entry is never
assembled (only two clock reads happen). -/
theorem C5_fail_fast_witness :
    get_latest_entries apiC5 St.init =
      (Outcome.err (Error.chronoParse ⟨"xx"⟩), { St.init with clockIdx := 2 }) :=
  (C5_fail_fast apiC5 St.init { St.init with clockIdx := 1 }
    { St.init with clockIdx := 2 } [eC9] [eC9] eBad [tOk]
    (Error.chronoParse ⟨"xx"⟩) rfl (by decide) (by decide)).1

/-- Claim C6, counterexample: the "is_running iff stop absent and
duration computed from now minus the start time of the entry" fails — the
assembler performs no consistency check: a raw entry with negative
duration but a present stop field yields `is_running = true` with `stop`
present, and the computed duration (clock 2000 minus encoded epoch 1000)
differs from now minus the start field of the entry itself (999). -/
theorem C6_cex :
    (build_time_entry apiC6 St.init eC6).1 = Outcome.ok tC6 ∧
    tC6.is_running = true ∧ tC6.stop = some 2000 ∧ ¬ tC6.stop = none ∧
    tC6.start = some 999 ∧ tC6.duration = 1000 ∧
    ¬ tC6.duration = 2000 - 999 := by
  decide

/-- Claim C6 (amended): for every `TimeEntry` successfully produced by
`build_time_entry`, `is_running = true` holds iff the raw duration value
is negative, in which case the duration equals the injected now (the
clock value read during this assembly) minus the epoch second encoded by
the raw duration — rather than the raw value taken verbatim; for a
non-negative raw value the duration is the raw value verbatim.  The
`stop` and `start` fields are passed through without any consistency
check against `is_running`. -/
theorem C6_running_iff (api : Api) (st st1 : St) (e : ApiTimeEntry)
    (t : TimeEntry) (h : build_time_entry api st e = (.ok t, st1)) :
    (t.is_running = true ↔ ∃ d, e.duration.as_i64 = some d ∧ d < 0) ∧
    (∀ d, e.duration.as_i64 = some d →
      (d < 0 → t.duration = api.clock st.clockIdx - (-d)) ∧
      (0 ≤ d → t.duration = d)) := by
  cases hm : mapUnwrapI64 e.project_id with
  | none => simp [build_time_entry, hm] at h
  | some pid =>
    rcases hres : resolveStep api st e pid with ⟨o, st3⟩
    have hclk : st3.clockIdx = st.clockIdx := by
      have h2 := resolveStep_clockIdx api st e pid
      rw [hres] at h2
      exact h2
    cases o with
    | err e2 => simp [build_time_entry, hm, hres] at h
    | panic m => simp [build_time_entry, hm, hres] at h
    | ok project =>
      simp only [build_time_entry, hm, hres] at h
      cases hd : parse_duration (api.clock st3.clockIdx) e.duration with
      | none => rw [hd] at h; simp at h
      | some dr =>
        rw [hd] at h
        cases hs : parseOptTs e.start with
        | error pe => rw [hs] at h; simp at h
        | ok start =>
          rw [hs] at h
          cases hst : parseOptTs e.stop with
          | error pe => rw [hst] at h; simp at h
          | ok stop =>
            rw [hst] at h
            cases hw : e.workspace_id.as_i64 with
            | none => rw [hw] at h; simp at h
            | some w2 =>
              rw [hw] at h
              simp only [Prod.mk.injEq, Outcome.ok.injEq] at h
              obtain ⟨ht, -⟩ := h
              obtain ⟨d, hd64, hcase⟩ :=
                parse_duration_inv (api.clock st3.clockIdx) e.duration dr hd
              rw [hclk] at hcase
              constructor
              · constructor
                · intro hrun
                  refine ⟨d, hd64, ?_⟩
                  rcases hcase with ⟨hneg, -⟩ | ⟨hpos, hdr⟩
                  · exact hneg
                  · rw [← ht] at hrun
                    simp only [hdr] at hrun
                    cases hrun
                · rintro ⟨d2, hd642, hneg2⟩
                  rw [hd64] at hd642
                  injection hd642 with hdd
                  subst hdd
                  rcases hcase with ⟨-, hdr⟩ | ⟨hpos, -⟩
                  · rw [← ht]
                    simp [hdr]
                  · exact absurd hpos (not_le.mpr hneg2)
              · intro d2 hd642
                rw [hd64] at hd642
                injection hd642 with hdd
                subst hdd
                constructor
                · intro hneg
                  rcases hcase with ⟨-, hdr⟩ | ⟨hpos, -⟩
                  · rw [← ht]
                    simp [hdr]
                  · exact absurd hpos (not_le.mpr hneg)
                · intro hpos
                  rcases hcase with ⟨hneg, -⟩ | ⟨-, hdr⟩
                  · exact absurd hpos (not_le.mpr hneg)
                  · rw [← ht]
                    simp [hdr]

/-- Claim C6, witness: the amended characterisation at the concrete entry
`eC6` (raw duration -1000, clock 2000). -/
theorem C6_running_iff_witness :
    (tC6.is_running = true ↔ ∃ d, eC6.duration.as_i64 = some d ∧ d < 0) ∧
    (∀ d, eC6.duration.as_i64 = some d →
      (d < 0 → tC6.duration = apiC6.clock St.init.clockIdx - (-d)) ∧
      (0 ≤ d → tC6.duration = d)) :=
  C6_running_iff apiC6 St.init { St.init with clockIdx := 1 } eC6 tC6
    (by decide)

/-- Claim C8, counterexample: after a second `get_projects(1)` call whose
response contains only the project named "New" under id 5, the subsequent
`get_project(1, 5)` is answered from the cache with the project named
"Old" cached by the first call — not with the value returned (and
attempted to be inserted) by that second `get_projects` call.  The fetch
count does not increase, but the value clause of the claim fails. -/
theorem C8_cex :
    (get_projects apiC8 (get_projects apiC8 St.init 1).2 1).1 =
      Outcome.ok [⟨true, 5, "New"⟩] ∧
    get_project apiC8 (get_projects apiC8 (get_projects apiC8 St.init 1).2 1).2 1 5 =
      (Outcome.ok (some ⟨true, 5, "Old"⟩),
        (get_projects apiC8 (get_projects apiC8 St.init 1).2 1).2) ∧
    ¬ (⟨true, 5, "Old"⟩ : Project) = ⟨true, 5, "New"⟩ := by
  decide

/-- Claim C8 (amended): after `get_projects(W)` returns `ps`, a
subsequent `get_project(W, p.id)` for any `p ∈ ps` is a cache hit:
it returns the currently cached value and leaves the state unchanged
(no further transport fetch, fetch count not increased); when the key was
not cached before the `get_projects` call, that cached value is one of
the projects returned by that call, with the same id. -/
theorem C8_list_then_resolve (api : Api) (st st1 : St) (w : Int)
    (ps : List Project) (h : get_projects api st w = (.ok ps, st1)) :
    ∀ p ∈ ps,
      (∃ v, cacheGet st1.cache (w, p.id) = some v ∧
        get_project api st1 w p.id = (.ok (some v), st1)) ∧
      (cacheGet st.cache (w, p.id) = none →
        ∃ q ∈ ps, q.id = p.id ∧ cacheGet st1.cache (w, p.id) = some q) := by
  cases hresp : api.projectsResp (JNum.int w) st.projFetches with
  | error e2 => simp [get_projects, hresp] at h
  | ok raw =>
    simp only [get_projects, hresp] at h
    cases hflag : (projectsLoop w raw st.cache []).2.2 with
    | true => rw [hflag] at h; simp at h
    | false =>
      rw [hflag, if_neg Bool.false_ne_true] at h
      simp only [Prod.mk.injEq, Outcome.ok.injEq] at h
      obtain ⟨hps, hst1⟩ := h
      intro p hp
      have hpmem : p ∈ (projectsLoop w raw st.cache []).2.1 := by
        rw [hps]; exact hp
      rcases projectsLoop_mem w raw st.cache [] p hpmem with hnil | hspec
      · cases hnil
      · obtain ⟨ap, hap, i, hi64, hpeq⟩ := hspec
        have hpid : p.id = i := by rw [hpeq]
        have hcache1 : st1.cache = (projectsLoop w raw st.cache []).1 := by
          rw [← hst1]
        have hpres := projectsLoop_presence w raw st.cache [] hflag ap hap i hi64
        rw [← hcache1] at hpres
        rw [← hpid] at hpres
        obtain ⟨v, hv⟩ := Option.isSome_iff_exists.mp hpres
        constructor
        · refine ⟨v, hv, ?_⟩
          simp [get_project, hv]
        · intro habs
          rw [hpid] at habs hv
          have habsent := projectsLoop_absent w raw st.cache [] hflag i v
            (by exact habs) (by rw [← hcache1]; exact hv)
          obtain ⟨hmem, hid⟩ := habsent
          refine ⟨v, ?_, ?_, ?_⟩
          · rw [← hps]; exact hmem
          · rw [hid, hpid]
          · rw [hpid]; exact hv

/-- Claim C8, witness: the amended property at the concrete oracle
`apiW`, whose single project list for workspace 1 is `[pr1]`. -/
theorem C8_list_then_resolve_witness :
    (∃ v, cacheGet stW8.cache (1, (5 : Int)) = some v ∧
      get_project apiW stW8 1 5 = (.ok (some v), stW8)) ∧
    (cacheGet St.init.cache (1, (5 : Int)) = none →
      ∃ q ∈ [(⟨true, 5, "Proj"⟩ : Project)], q.id = 5 ∧
        cacheGet stW8.cache (1, (5 : Int)) = some q) :=
  C8_list_then_resolve apiW St.init stW8 1 [⟨true, 5, "Proj"⟩] (by decide)
    ⟨true, 5, "Proj"⟩ (by decide)

end Tgl
